import Mathlib

/-!
Shallow embedding of the chat/file relay server (`server.py`).

Connections are modelled by natural-number identifiers (socket object
identity becomes equality of identifiers).  The two registries
(`clients`, `file_clients`) and the group directory (`groups`) are
Python dicts, modelled as association lists with insertion order
(insert updates in place, append when new; delete filters the key
out).  Network output is a list of attempted write events; a send to a
connection `c` with `failing c = true` models a raising
`send`/`sendall` on that socket.  Disk storage for received files is a
map from path to byte list.  Bytes are natural numbers.
-/

namespace ChatRelay

/-- Lookup in a Python dict (first binding of the key). -/
def dictGet (m : List (String × α)) (k : String) : Option α :=
  (m.find? (fun p => p.1 = k)).map (fun p => p.2)

/-- Python `k in d`. -/
def dictHas (m : List (String × α)) (k : String) : Bool :=
  (dictGet m k).isSome

/-- Python `d[k] = v`: update in place if present, else append. -/
def dictSet (m : List (String × α)) (k : String) (v : α) : List (String × α) :=
  if dictHas m k then m.map (fun p => if p.1 = k then (k, v) else p)
  else m ++ [(k, v)]

/-- Python `del d[k]` (dict keys are unique, so removing every binding
of the key coincides with removing the entry). -/
def dictDel (m : List (String × α)) (k : String) : List (String × α) :=
  m.filter (fun p => ¬ p.1 = k)

/-- Python `s.strip()`: remove leading and trailing whitespace. -/
def pyStrip (s : String) : String :=
  ⟨((s.data.dropWhile Char.isWhitespace).reverse.dropWhile Char.isWhitespace).reverse⟩

/-- Python `s.lower()` (ASCII case folding). -/
def pyLower (s : String) : String :=
  ⟨s.data.map Char.toLower⟩

/-- Python `s.startswith(pre)`. -/
def pyStartswith (s pre : String) : Bool :=
  pre.data.isPrefixOf s.data

/-- Python `s[n:]` (drop the first `n` characters). -/
def pySlice (s : String) (n : Nat) : String :=
  ⟨s.data.drop n⟩

/-- Splitting a character list at every occurrence of a separator
character, keeping empty pieces. -/
def splitChar (sep : Char) : List Char → List (List Char)
  | [] => [[]]
  | c :: cs =>
    if c = sep then [] :: splitChar sep cs
    else
      match splitChar sep cs with
      | [] => [[c]]
      | g :: gs => (c :: g) :: gs

/-- Python `s.split(sep)` for a one-character separator (all the
separators in the source are one character). -/
def pySplitAll (s : String) (sep : Char) : List String :=
  (splitChar sep s.data).map (fun cs => (⟨cs⟩ : String))

/-- Python `s.split(sep, maxsplit)`: at most `maxsplit` splits, the
remainder (separators included) forming the last element. -/
def pySplit (s : String) (sep : Char) (maxsplit : Nat) : List String :=
  let ps := pySplitAll s sep
  if ps.length ≤ maxsplit + 1 then ps
  else ps.take maxsplit ++ [String.intercalate (⟨[sep]⟩ : String) (ps.drop maxsplit)]

/-- Digit run of a Python `int()` literal: decimal digits with single
underscores allowed between digits. -/
def pyDigits : Nat → List Char → Option Nat
  | acc, [] => some acc
  | acc, c :: cs =>
    if c.isDigit then pyDigits (acc * 10 + (c.toNat - '0'.toNat)) cs
    else if c = '_' then
      match cs with
      | d :: cs2 => if d.isDigit then pyDigits (acc * 10 + (d.toNat - '0'.toNat)) cs2 else none
      | [] => none
    else none

/-- Python `int(s)` on ASCII text: surrounding whitespace stripped,
optional sign, then a nonempty digit run; `none` models `ValueError`. -/
def pyInt (s : String) : Option Int :=
  match (pyStrip s).data with
  | [] => none
  | '+' :: d :: ds => if d.isDigit then (pyDigits 0 (d :: ds)).map Int.ofNat else none
  | '-' :: d :: ds => if d.isDigit then (pyDigits 0 (d :: ds)).map (fun n => -(Int.ofNat n)) else none
  | d :: ds => if d.isDigit then (pyDigits 0 (d :: ds)).map Int.ofNat else none

/-- One attempted write by the server: a chat-channel text line, a
file-channel forwarded header line, or file-channel payload bytes. -/
inductive Out where
  | chat (c : Nat) (line : String)
  | fileHeader (c : Nat) (line : String)
  | fileBytes (c : Nat) (data : List Nat)
deriving DecidableEq, Repr

/-- Shared server state: the two session registries, the group
directory, the on-disk store of received files, and the list of
connections the server has closed. -/
structure ServerState where
  clients : List (String × Nat)
  fileClients : List (String × Nat)
  groups : List (String × List String)
  store : List (String × List Nat)
  closed : List Nat
deriving DecidableEq, Repr

/-- Result of processing one chat line: normal continuation (the
dispatcher loop reads the next line) or an uncaught exception (the
loop exits and the `finally` cleanup closes the connection). -/
inductive Res where
  | ok (st : ServerState) (outs : List Out)
  | exn (st : ServerState) (outs : List Out)
deriving DecidableEq, Repr

/-- The server state a result carries (the state as mutated so far,
whether the line was processed normally or an exception escaped). -/
def Res.state : Res → ServerState
  | Res.ok st _ => st
  | Res.exn st _ => st

/-- Every member list of the group directory is duplicate-free. -/
def groupsNodup (gs : List (String × List String)) : Prop :=
  ∀ p ∈ gs, (p.2 : List String).Nodup

/-- `broadcast`'s loop over the snapshot `list(clients.items())`: the
live dict and closed list are threaded (a failed `sendall` closes that
user's connection and deletes the entry); successful sends emit the
broadcast line. -/
def broadcastLoop (failing : Nat → Bool) (sender line : String) :
    List (String × Nat) → List (String × Nat) → List Nat →
    List (String × Nat) × List Nat × List Out
  | [], live, cl => (live, cl, [])
  | (u, c) :: rest, live, cl =>
    if u = sender then broadcastLoop failing sender line rest live cl
    else if failing c then
      broadcastLoop failing sender line rest (dictDel live u) (cl ++ [c])
    else
      let r := broadcastLoop failing sender line rest live cl
      (r.1, r.2.1, Out.chat c line :: r.2.2)

/-- `broadcast(sender, message)`. -/
def broadcast (failing : Nat → Bool) (st : ServerState) (sender message : String) :
    ServerState × List Out :=
  let line := "[BROADCAST from " ++ sender ++ "]: " ++ message ++ "\n"
  let r := broadcastLoop failing sender line st.clients st.clients st.closed
  ({ st with clients := r.1, closed := r.2.1 }, r.2.2)

/-- `send_private(sender, target_user, message)`: a failed send to the
target is only logged; the "not found" reply to the sender is an
unguarded `sendall` and so may raise. -/
def send_private (failing : Nat → Bool) (st : ServerState)
    (sender target_user message : String) : Res :=
  match dictGet st.clients target_user with
  | some c =>
    if failing c then Res.ok st []
    else Res.ok st [Out.chat c ("[PRIVATE from " ++ sender ++ "]: " ++ message ++ "\n")]
  | none =>
    match dictGet st.clients sender with
    | some sc =>
      if failing sc then Res.exn st []
      else Res.ok st [Out.chat sc ("User " ++ target_user ++ " not found.\n")]
    | none => Res.ok st []

/-- `list_connected_users(current_user)`. -/
def list_connected_users (st : ServerState) (current_user : String) : List String :=
  (st.clients.map (fun p => p.1)).filter (fun u => ¬ u = current_user)

/-- The group-directory mutation performed by `join_group`: create the
group when absent, then append the username unless already a member. -/
def joinMembers (gs : List (String × List String)) (username group_name : String) :
    List (String × List String) :=
  let g1 := if dictHas gs group_name then gs else gs ++ [(group_name, [])]
  let mem := (dictGet g1 group_name).getD []
  if username ∈ mem then g1 else dictSet g1 group_name (mem ++ [username])

/-- `join_group(username, group_name)`: mutate the directory, then send
the confirmation with an unguarded `sendall` (raises on failure). -/
def join_group (failing : Nat → Bool) (st : ServerState)
    (username group_name : String) : Res :=
  let st1 := { st with groups := joinMembers st.groups username group_name }
  match dictGet st1.clients username with
  | some c =>
    if failing c then Res.exn st1 []
    else Res.ok st1 [Out.chat c ("You joined group \x27" ++ group_name ++ "\x27\n")]
  | none => Res.ok st1 []

/-- `send_group_message`'s fan-out loop: each member's send is guarded
by `try/except: pass`, so failures neither evict nor raise. -/
def groupFanout (failing : Nat → Bool) (st : ServerState)
    (sender group_name message : String) : List String → List Out
  | [] => []
  | u :: rest =>
    let tail := groupFanout failing st sender group_name message rest
    if u = sender then tail
    else
      match dictGet st.clients u with
      | some c =>
        if failing c then tail
        else Out.chat c ("[GROUP " ++ group_name ++ "] " ++ sender ++ ": " ++ message ++ "\n") :: tail
      | none => tail

/-- `send_group_message(sender, group_name, message)`: the "not in
group" reply is an unguarded `sendall`. -/
def send_group_message (failing : Nat → Bool) (st : ServerState)
    (sender group_name message : String) : Res :=
  let mems := dictGet st.groups group_name
  if mems.isSome ∧ sender ∈ mems.getD [] then
    Res.ok st (groupFanout failing st sender group_name message (mems.getD []))
  else
    match dictGet st.clients sender with
    | some sc =>
      if failing sc then Res.exn st []
      else Res.ok st [Out.chat sc ("You are not in group \x27" ++ group_name ++ "\x27\n")]
    | none => Res.ok st []

/-- Processing of one received chat line in `handle_client`'s loop:
strip, classify by the lowercased first whitespace token via
`startswith` checks (after the literal `FILE_RECEIVED|` check), and
dispatch.  `Res.exn` models an uncaught exception — `IndexError` from
`msg.split(" ", 1)[1]` on a bare `broadcast`/`join`, or a raising
unguarded `conn.send` — after which the loop exits and the `finally`
cleanup runs. -/
def processChatLine (failing : Nat → Bool) (st : ServerState)
    (username : String) (conn : Nat) (raw : String) : Res :=
  let msg := pyStrip raw
  let command := pyLower ((pySplit msg ' ' 1).headD "")
  if pyStartswith msg "FILE_RECEIVED|" then
    let parts := pySplit msg '|' 2
    if parts.length = 3 then
      let original_sender := parts.getD 1 ""
      let filename := parts.getD 2 ""
      match dictGet st.clients original_sender with
      | some c =>
        if failing c then Res.ok st []
        else Res.ok st [Out.chat c ("[ACK] " ++ username ++ " received file \x27" ++ filename ++ "\x27\n")]
      | none => Res.ok st []
    else Res.ok st []
  else if pyStartswith command "msg" then
    let parts := pySplit msg ' ' 2
    if parts.length < 3 then
      if failing conn then Res.exn st []
      else Res.ok st [Out.chat conn "Usage: msg <username> <message>\n"]
    else send_private failing st username (parts.getD 1 "") (parts.getD 2 "")
  else if pyStartswith command "broadcast" then
    let ps := pySplit msg ' ' 1
    if ps.length < 2 then Res.exn st []
    else
      let r := broadcast failing st username (ps.getD 1 "")
      Res.ok r.1 r.2
  else if pyStartswith command "list" then
    if failing conn then Res.exn st []
    else Res.ok st [Out.chat conn
      ("Connected users: " ++ String.intercalate ", " (list_connected_users st username) ++ "\n")]
  else if pyStartswith command "join" then
    let ps := pySplit msg ' ' 1
    if ps.length < 2 then Res.exn st []
    else join_group failing st username (ps.getD 1 "")
  else if pyStartswith command "send_group" then
    let parts := pySplit msg ' ' 2
    if parts.length < 3 then
      if failing conn then Res.exn st []
      else Res.ok st [Out.chat conn "Usage: send_group <group_name> <message>\n"]
    else send_group_message failing st username (parts.getD 1 "") (parts.getD 2 "")
  else
    if failing conn then Res.exn st []
    else Res.ok st [Out.chat conn "Unknown command. Use msg/broadcast/list/join/send_group\n"]

/-- `handle_client`'s `finally` block: close and delete the username's
chat entry if present, close and delete its file entry if present
(no handle-identity check on either), then close the own socket. -/
def chatCleanup (st : ServerState) (username : String) (conn : Nat) : ServerState :=
  let p1 : List (String × Nat) × List Nat :=
    match dictGet st.clients username with
    | some sc => (dictDel st.clients username, [sc])
    | none => (st.clients, [])
  let p2 : List (String × Nat) × List Nat :=
    match dictGet st.fileClients username with
    | some fc => (dictDel st.fileClients username, [fc])
    | none => (st.fileClients, [])
  { st with clients := p1.1, fileClients := p2.1,
            closed := st.closed ++ p1.2 ++ p2.2 ++ [conn] }

/-- `handle_file_client`'s `finally` block: close the own socket, then
delete the username's file entry only when the stored handle `is` the
closing connection itself. -/
def fileCleanup (st : ServerState) (username : String) (conn : Nat) : ServerState :=
  let st1 := { st with closed := st.closed ++ [conn] }
  if ¬ username = "" ∧ dictGet st1.fileClients username = some conn then
    { st1 with fileClients := dictDel st1.fileClients username }
  else st1

/-- Registration on the chat handshake: `clients[username] = conn`. -/
def registerChat (st : ServerState) (username : String) (conn : Nat) : ServerState :=
  { st with clients := dictSet st.clients username conn }

/-- Registration on the file handshake: `file_clients[username] = conn`. -/
def registerFile (st : ServerState) (username : String) (conn : Nat) : ServerState :=
  { st with fileClients := dictSet st.fileClients username conn }

/-- `send_file_to_client(file_path, sender, conn, display_name)`: look
the saved file up on disk (`getsize` failing on a missing path aborts
silently), then write the fresh header `sender|display_name|filesize\n`
followed by the file's bytes; any raise is caught and only logged. -/
def send_file_to_client (failing : Nat → Bool) (store : List (String × List Nat))
    (file_path sender : String) (conn : Nat) (display_name : String) : List Out :=
  match dictGet store file_path with
  | none => []
  | some data =>
    if failing conn then []
    else [Out.fileHeader conn (sender ++ "|" ++ display_name ++ "|" ++ toString data.length ++ "\n"),
          Out.fileBytes conn data]

/-- The group-target loop of `handle_file_client`: for every member
other than the sender, a chat notification under `clients_lock`
(guarded send) and, when a file handle is registered, a forward of the
saved file with the original filename as display name. -/
def groupForward (failing : Nat → Bool) (st : ServerState)
    (sender filename group_name server_saved : String) : List String → List Out
  | [] => []
  | u :: rest =>
    let tail := groupForward failing st sender filename group_name server_saved rest
    if u = sender then tail
    else
      let chatOuts : List Out :=
        match dictGet st.clients u with
        | some c =>
          if failing c then []
          else [Out.chat c ("[FILE] " ++ sender ++ " sent file \x27" ++ filename ++
                            "\x27 to group \x27" ++ group_name ++ "\x27.\n")]
        | none => []
      let fileOuts : List Out :=
        match dictGet st.fileClients u with
        | some fc => send_file_to_client failing st.store server_saved sender fc filename
        | none => []
      chatOuts ++ fileOuts ++ tail

/-- One iteration of `handle_file_client`'s loop after the header line
has been read: parse `sender|target|filename|filesize`, on success
consume the payload from the input stream, save it to disk under
`received_from_<sender>_<filename>`, and dispatch on the target (self,
`GROUP:` prefix, or plain username).  Returns the new state, the
attempted writes, and the unconsumed input. -/
def processFileUpload (failing : Nat → Bool) (st : ServerState)
    (header : String) (input : List Nat) : ServerState × List Out × List Nat :=
  let parts := pySplitAll header '|'
  if ¬ parts.length = 4 then (st, [], input)
  else
    let sender := parts.getD 0 ""
    let target := parts.getD 1 ""
    let filename := parts.getD 2 ""
    match pyInt (parts.getD 3 "") with
    | none => (st, [], input)
    | some filesize =>
      let n := filesize.toNat
      let filedata := input.take n
      let rest := input.drop n
      let server_saved := "received_from_" ++ sender ++ "_" ++ filename
      let st1 := { st with store := dictSet st.store server_saved filedata }
      if target = sender then
        match dictGet st1.clients sender with
        | some c =>
          if failing c then (st1, [], rest)
          else (st1, [Out.chat c ("[FILE] You sent file \x27" ++ filename ++
                                  "\x27 (saved as " ++ server_saved ++ ").\n")], rest)
        | none => (st1, [], rest)
      else if pyStartswith target "GROUP:" then
        let group_name := pySlice target 6
        match dictGet st1.groups group_name with
        | some mems =>
          (st1, groupForward failing st1 sender filename group_name server_saved mems, rest)
        | none => (st1, [], rest)
      else
        let targ_chat := dictGet st1.clients target
        let targ_file := dictGet st1.fileClients target
        let chatOuts : List Out :=
          match targ_chat with
          | some c =>
            if failing c then []
            else [Out.chat c ("[FILE] " ++ sender ++ " sent you file \x27" ++ filename ++
                              "\x27 (" ++ toString filesize ++ " bytes). Incoming on file socket.\n")]
          | none => []
        match targ_file with
        | some fc =>
          (st1, chatOuts ++ send_file_to_client failing st1.store server_saved sender fc filename, rest)
        | none =>
          let senderOuts : List Out :=
            match dictGet st1.clients sender with
            | some sc =>
              if failing sc then []
              else [Out.chat sc ("User " ++ target ++ " has no file socket; file saved as " ++
                                 server_saved ++ "\n")]
            | none => []
          (st1, chatOuts ++ senderOuts, rest)

/-- Folding `join_group`'s directory mutation over a sequence of
`(username, group)` operations, starting from the empty directory. -/
def applyJoins (ops : List (String × String)) : List (String × List String) :=
  ops.foldl (fun gs p => joinMembers gs p.1 p.2) []

/-- Lock/socket event, for stating the locking discipline: acquiring
or releasing a named registry lock, or a socket write. -/
inductive Ev where
  | acq (lock : String)
  | rel (lock : String)
  | send (c : Nat)
deriving DecidableEq, Repr

/-- The event trace of `broadcast`: the whole iteration over
`clients.items()`, `sendall` included, runs inside the
`with clients_lock` block. -/
def broadcastTrace (st : ServerState) (sender : String) : List Ev :=
  [Ev.acq "clients_lock"] ++
  (st.clients.filterMap (fun p => if ¬ p.1 = sender then some (Ev.send p.2) else none)) ++
  [Ev.rel "clients_lock"]

/-- The event trace of `send_group_message`: both the fan-out sends
and the "not in group" reply happen inside `with clients_lock`. -/
def sendGroupTrace (st : ServerState) (sender group_name : String) : List Ev :=
  let mems := dictGet st.groups group_name
  if mems.isSome ∧ sender ∈ mems.getD [] then
    [Ev.acq "clients_lock"] ++
    ((mems.getD []).filterMap (fun u =>
      if ¬ u = sender then (dictGet st.clients u).map Ev.send else none)) ++
    [Ev.rel "clients_lock"]
  else
    [Ev.acq "clients_lock"] ++
    ((dictGet st.clients sender).toList.map Ev.send) ++
    [Ev.rel "clients_lock"]

/-- The event trace of `handle_file_client`'s plain-username forward:
each registry lookup is its own `with` block, the chat notification
and `send_file_to_client` run outside any lock, and only the
no-file-socket reply to the sender re-enters `clients_lock`. -/
def filePrivateForwardTrace (st : ServerState) (sender target : String) : List Ev :=
  [Ev.acq "clients_lock", Ev.rel "clients_lock",
   Ev.acq "file_clients_lock", Ev.rel "file_clients_lock"] ++
  ((dictGet st.clients target).toList.map Ev.send) ++
  (match dictGet st.fileClients target with
   | some fc => [Ev.send fc]
   | none =>
     [Ev.acq "clients_lock"] ++
     ((dictGet st.clients sender).toList.map Ev.send) ++
     [Ev.rel "clients_lock"])

/-- Whether some send event of the trace occurs while at least one
lock is held (`d` counts currently held locks). -/
def someSendUnderLock : Nat → List Ev → Bool
  | _, [] => false
  | d, Ev.acq _ :: r => someSendUnderLock (d + 1) r
  | d, Ev.rel _ :: r => someSendUnderLock (d - 1) r
  | d, Ev.send _ :: r => decide (0 < d) || someSendUnderLock d r

/-- Whether every send event of the trace occurs while at least one
lock is held. -/
def allSendsUnderLock : Nat → List Ev → Bool
  | _, [] => true
  | d, Ev.acq _ :: r => allSendsUnderLock (d + 1) r
  | d, Ev.rel _ :: r => allSendsUnderLock (d - 1) r
  | d, Ev.send _ :: r => decide (0 < d) && allSendsUnderLock d r

section DictLemmas

variable {α : Type}

theorem dictGet_nil (k : String) : dictGet ([] : List (String × α)) k = none := rfl

theorem dictGet_cons (p : String × α) (m : List (String × α)) (k : String) :
    dictGet (p :: m) k = if p.1 = k then some p.2 else dictGet m k := by
  by_cases h : p.1 = k <;> simp [dictGet, List.find?, h]

theorem dictDel_cons (p : String × α) (m : List (String × α)) (k : String) :
    dictDel (p :: m) k = if p.1 = k then dictDel m k else p :: dictDel m k := by
  by_cases h : p.1 = k <;> simp [dictDel, h]

theorem dictGet_dictDel_self (m : List (String × α)) (k : String) :
    dictGet (dictDel m k) k = none := by
  induction m with
  | nil => rfl
  | cons p rest ih =>
    rw [dictDel_cons]
    by_cases h : p.1 = k
    · simpa [h] using ih
    · rw [if_neg h, dictGet_cons, if_neg h]; exact ih

theorem dictGet_dictDel_ne (m : List (String × α)) (k k' : String) (h : ¬ k' = k) :
    dictGet (dictDel m k) k' = dictGet m k' := by
  induction m with
  | nil => rfl
  | cons p rest ih =>
    rw [dictDel_cons, dictGet_cons]
    by_cases hp : p.1 = k
    · have hpk : ¬ p.1 = k' := fun e => h (e.symm.trans hp)
      rw [if_pos hp, ih, if_neg hpk]
    · rw [if_neg hp, dictGet_cons, ih]

theorem dictGet_dictDel_none (m : List (String × α)) (k k' : String)
    (h : dictGet m k' = none) : dictGet (dictDel m k) k' = none := by
  by_cases e : k' = k
  · simpa [e] using dictGet_dictDel_self m k
  · rw [dictGet_dictDel_ne m k k' e]; exact h

theorem dictGet_append_single_self (m : List (String × α)) (k : String) (v : α)
    (h : dictGet m k = none) : dictGet (m ++ [(k, v)]) k = some v := by
  induction m with
  | nil => simp [dictGet_cons]
  | cons p rest ih =>
    rw [dictGet_cons] at h
    by_cases hp : p.1 = k
    · simp [hp] at h
    · rw [List.cons_append, dictGet_cons, if_neg hp]
      exact ih (by simpa [hp] using h)

theorem dictGet_map_update (m : List (String × α)) (k : String) (v : α) :
    dictGet (m.map (fun p => if p.1 = k then (k, v) else p)) k =
      if dictHas m k then some v else none := by
  induction m with
  | nil => simp [dictGet, dictHas]
  | cons p rest ih =>
    by_cases hp : p.1 = k
    · simp [hp, dictGet_cons, dictHas]
    · simp only [List.map_cons, if_neg hp, dictGet_cons, hp, if_false, ite_false]
      rw [ih]
      have : dictHas (p :: rest) k = dictHas rest k := by
        simp [dictHas, dictGet_cons, hp]
      rw [this]

theorem dictGet_dictSet_self (m : List (String × α)) (k : String) (v : α) :
    dictGet (dictSet m k v) k = some v := by
  unfold dictSet
  by_cases h : dictHas m k
  · simp [h, dictGet_map_update]
  · have h0 : dictGet m k = none := by
      rcases hq : dictGet m k with _ | w
      · rfl
      · exact absurd (by simp [dictHas, hq]) h
    rw [if_neg (by simp [h])]
    exact dictGet_append_single_self m k v h0

theorem dictHas_dictSet_self (m : List (String × α)) (k : String) (v : α) :
    dictHas (dictSet m k v) k = true := by
  simp [dictHas, dictGet_dictSet_self]

theorem mem_of_dictGet_eq_some (m : List (String × α)) (k : String) (v : α)
    (h : dictGet m k = some v) : (k, v) ∈ m := by
  induction m with
  | nil => simp [dictGet] at h
  | cons p rest ih =>
    rw [dictGet_cons] at h
    by_cases hp : p.1 = k
    · have hpv : p = (k, v) := by
        rw [if_pos hp] at h
        cases p
        simp_all
      rw [hpv]
      exact List.mem_cons_self _ _
    · rw [if_neg hp] at h
      exact List.mem_cons_of_mem _ (ih h)

end DictLemmas

/-- C4: the claim says processing a chat line never closes the
connection and that a malformed command — a bare `broadcast` or a bare
`join` — is skipped with the dispatcher loop continuing.  In the code,
`msg.split(" ", 1)[1]` raises `IndexError` on both lines, the
dispatcher loop exits, and the `finally` cleanup closes the connection
and removes the username from both registries (third conjunct). -/
theorem bare_broadcast_or_join_raises :
    processChatLine (fun _ => false) ⟨[("alice", 1)], [], [], [], []⟩ "alice" 1 "broadcast" =
      Res.exn ⟨[("alice", 1)], [], [], [], []⟩ [] ∧
    processChatLine (fun _ => false) ⟨[("alice", 1)], [], [], [], []⟩ "alice" 1 "join" =
      Res.exn ⟨[("alice", 1)], [], [], [], []⟩ [] ∧
    chatCleanup ⟨[("alice", 1)], [], [], [], []⟩ "alice" 1 =
      ⟨[], [], [], [], [1, 1]⟩ := by decide

/-- C2 counterexample: the chat-channel cleanup does not compare
handle identities.  A registry where `alice` is stored with connection
2 (a newer connection), cleaned up by the thread of old connection 1,
loses the entry anyway. -/
theorem chatCleanup_deletes_foreign_handle :
    dictGet (⟨[("alice", 2)], [], [], [], []⟩ : ServerState).clients "alice" = some 2 ∧
    ¬ (2 : Nat) = 1 ∧
    dictGet (chatCleanup ⟨[("alice", 2)], [], [], [], []⟩ "alice" 1).clients "alice" = none := by
  decide

/-- C2 amended: only the file channel checks handle identity — its
cleanup keeps an entry stored with a different connection and removes
an entry stored with the closing connection itself — while the chat
channel cleanup removes the username's chat entry and file entry
unconditionally. -/
theorem cleanup_identity_policy :
    (∀ (st : ServerState) (u : String) (c c' : Nat),
        dictGet st.fileClients u = some c' → ¬ c' = c →
        dictGet (fileCleanup st u c).fileClients u = some c') ∧
    (∀ (st : ServerState) (u : String) (c : Nat),
        dictGet st.fileClients u = some c → ¬ u = "" →
        dictGet (fileCleanup st u c).fileClients u = none) ∧
    (∀ (st : ServerState) (u : String) (c : Nat),
        dictGet (chatCleanup st u c).clients u = none ∧
        dictGet (chatCleanup st u c).fileClients u = none) := by
  refine ⟨?_, ?_, ?_⟩
  · intro st u c c' h hne
    simp only [fileCleanup]
    rw [if_neg]
    · exact h
    · simp [h, hne]
  · intro st u c h hu
    simp only [fileCleanup]
    rw [if_pos]
    · exact dictGet_dictDel_self _ _
    · simp [h, hu]
  · intro st u c
    constructor
    · rcases h : dictGet st.clients u with _ | sc <;>
        simp [chatCleanup, h, dictGet_dictDel_self]
    · rcases h : dictGet st.fileClients u with _ | fc <;>
        simp [chatCleanup, h, dictGet_dictDel_self]

/-- Witness for the amended C2 theorem at concrete registries. -/
theorem cleanup_identity_policy_witness :
    dictGet (fileCleanup ⟨[], [("bob", 7)], [], [], []⟩ "bob" 9).fileClients "bob" = some 7 ∧
    dictGet (fileCleanup ⟨[], [("bob", 7)], [], [], []⟩ "bob" 7).fileClients "bob" = none ∧
    dictGet (chatCleanup ⟨[("bob", 7)], [("bob", 8)], [], [], []⟩ "bob" 7).clients "bob" = none :=
  ⟨cleanup_identity_policy.1 ⟨[], [("bob", 7)], [], [], []⟩ "bob" 9 7 (by decide) (by decide),
   cleanup_identity_policy.2.1 ⟨[], [("bob", 7)], [], [], []⟩ "bob" 7 (by decide) (by decide),
   (cleanup_identity_policy.2.2 ⟨[("bob", 7)], [("bob", 8)], [], [], []⟩ "bob" 7).1⟩

/-- C3 counterexample: closing a chat connection does not leave the
file registry unchanged — the chat cleanup also deletes the same
username's file entry (and closes that socket). -/
theorem chatCleanup_clears_file_entry :
    dictGet (⟨[("a", 1)], [("a", 3)], [], [], []⟩ : ServerState).fileClients "a" = some 3 ∧
    dictGet (chatCleanup ⟨[("a", 1)], [("a", 3)], [], [], []⟩ "a" 1).fileClients "a" = none := by
  decide

/-- C3 amended: eviction stays confined to the closing username — a
chat cleanup removes at most that username's chat and file entries and
leaves every other username's entries and the group directory
untouched, and a file cleanup leaves the chat registry and groups
untouched and removes at most that username's file entry. -/
theorem cleanup_frame_policy :
    (∀ (st : ServerState) (u : String) (c : Nat) (v : String), ¬ v = u →
        dictGet (chatCleanup st u c).clients v = dictGet st.clients v ∧
        dictGet (chatCleanup st u c).fileClients v = dictGet st.fileClients v) ∧
    (∀ (st : ServerState) (u : String) (c : Nat),
        (chatCleanup st u c).groups = st.groups) ∧
    (∀ (st : ServerState) (u : String) (c : Nat),
        (fileCleanup st u c).clients = st.clients ∧
        (fileCleanup st u c).groups = st.groups) ∧
    (∀ (st : ServerState) (u : String) (c : Nat) (v : String), ¬ v = u →
        dictGet (fileCleanup st u c).fileClients v = dictGet st.fileClients v) := by
  refine ⟨?_, ?_, ?_, ?_⟩
  · intro st u c v hv
    constructor
    · rcases h : dictGet st.clients u with _ | sc <;>
        simp [chatCleanup, h, dictGet_dictDel_ne _ _ _ hv]
    · rcases h : dictGet st.fileClients u with _ | fc <;>
        simp [chatCleanup, h, dictGet_dictDel_ne _ _ _ hv]
  · intro st u c
    rcases h : dictGet st.clients u with _ | sc <;>
      rcases h2 : dictGet st.fileClients u with _ | fc <;>
      simp [chatCleanup, h, h2]
  · intro st u c
    simp only [fileCleanup]
    by_cases h : ¬ u = "" ∧ dictGet st.fileClients u = some c <;> simp [h]
  · intro st u c v hv
    simp only [fileCleanup]
    by_cases h : ¬ u = "" ∧ dictGet st.fileClients u = some c <;>
      simp [h, dictGet_dictDel_ne _ _ _ hv]

/-- Witness for the amended C3 theorem at concrete registries. -/
theorem cleanup_frame_policy_witness :
    dictGet (chatCleanup ⟨[("a", 1), ("b", 2)], [("b", 4)], [], [], []⟩ "a" 1).clients "b" =
      dictGet (⟨[("a", 1), ("b", 2)], [("b", 4)], [], [], []⟩ : ServerState).clients "b" ∧
    dictGet (fileCleanup ⟨[], [("a", 3), ("b", 4)], [], [], []⟩ "a" 3).fileClients "b" =
      dictGet (⟨[], [("a", 3), ("b", 4)], [], [], []⟩ : ServerState).fileClients "b" :=
  ⟨(cleanup_frame_policy.1 ⟨[("a", 1), ("b", 2)], [("b", 4)], [], [], []⟩ "a" 1 "b" (by decide)).1,
   cleanup_frame_policy.2.2.2 ⟨[], [("a", 3), ("b", 4)], [], [], []⟩ "a" 3 "b" (by decide)⟩

/-- C5: a file-channel header whose pipe-delimited field count is not
exactly 4, or whose filesize field is not a parsable integer, is
skipped: the state is unchanged (nothing stored, nobody evicted),
nothing is written to any connection, and no payload byte is consumed,
so the loop reads the next header on the still-open connection. -/
theorem malformed_file_header_skipped (failing : Nat → Bool) (st : ServerState)
    (header : String) (input : List Nat)
    (h : ¬ (pySplitAll header '|').length = 4 ∨
         pyInt ((pySplitAll header '|').getD 3 "") = none) :
    processFileUpload failing st header input = (st, [], input) := by
  unfold processFileUpload
  rcases h with h | h
  · simp [h]
  · by_cases h4 : (pySplitAll header '|').length = 4
    · rw [if_neg (not_not_intro h4), h]
    · simp [h4]

/-- Witness for C5: a 3-field header and a 4-field header with a
non-numeric size are both skipped without consuming payload. -/
theorem malformed_file_header_skipped_witness :
    processFileUpload (fun _ => false) ⟨[], [], [], [], []⟩ "a|b|c" [1, 2] =
      (⟨[], [], [], [], []⟩, [], [1, 2]) ∧
    processFileUpload (fun _ => false) ⟨[], [], [], [], []⟩ "a|b|c|xx" [1, 2] =
      (⟨[], [], [], [], []⟩, [], [1, 2]) :=
  ⟨malformed_file_header_skipped (fun _ => false) ⟨[], [], [], [], []⟩ "a|b|c" [1, 2]
      (Or.inl (by decide)),
   malformed_file_header_skipped (fun _ => false) ⟨[], [], [], [], []⟩ "a|b|c|xx" [1, 2]
      (Or.inr (by decide))⟩

/-- C6 counterexample: a failed private delivery does not evict the
target.  With `bob` registered on connection 5 and that connection
failing, `send_private` returns with the registry unchanged and
nothing closed. -/
theorem failed_private_send_keeps_entry :
    send_private (fun c => c = 5) ⟨[("bob", 5)], [], [], [], []⟩ "alice" "bob" "hi" =
      Res.ok ⟨[("bob", 5)], [], [], [], []⟩ [] := by decide

/-- C7 counterexample: classification is by `startswith`, not by exact
token — the line `msgx`, whose first token is not exactly any command,
is dispatched as `msg` and draws the usage reply, not the
unknown-command reply. -/
theorem msgx_not_unknown :
    processChatLine (fun _ => false) ⟨[], [], [], [], []⟩ "alice" 1 "msgx" =
      Res.ok ⟨[], [], [], [], []⟩ [Out.chat 1 "Usage: msg <username> <message>\n"] ∧
    ¬ processChatLine (fun _ => false) ⟨[], [], [], [], []⟩ "alice" 1 "msgx" =
      Res.ok ⟨[], [], [], [], []⟩
        [Out.chat 1 "Unknown command. Use msg/broadcast/list/join/send_group\n"] := by
  decide

/-- C7 amended: classification is by prefix, in the order msg,
broadcast, list, join, send_group, after the literal `FILE_RECEIVED|`
check.  A line whose stripped text does not start with
`FILE_RECEIVED|` and whose lowercased first token starts with none of
the five command words draws exactly the unknown-command reply on the
sender's own (working) connection, with the state unchanged. -/
theorem unknown_command_policy (failing : Nat → Bool) (st : ServerState)
    (username : String) (conn : Nat) (raw : String)
    (hok : failing conn = false)
    (h0 : ¬ pyStartswith (pyStrip raw) "FILE_RECEIVED|" = true)
    (h1 : ¬ pyStartswith (pyLower ((pySplit (pyStrip raw) ' ' 1).headD "")) "msg" = true)
    (h2 : ¬ pyStartswith (pyLower ((pySplit (pyStrip raw) ' ' 1).headD "")) "broadcast" = true)
    (h3 : ¬ pyStartswith (pyLower ((pySplit (pyStrip raw) ' ' 1).headD "")) "list" = true)
    (h4 : ¬ pyStartswith (pyLower ((pySplit (pyStrip raw) ' ' 1).headD "")) "join" = true)
    (h5 : ¬ pyStartswith (pyLower ((pySplit (pyStrip raw) ' ' 1).headD "")) "send_group" = true) :
    processChatLine failing st username conn raw =
      Res.ok st [Out.chat conn "Unknown command. Use msg/broadcast/list/join/send_group\n"] := by
  simp only [List.headD_eq_head?_getD] at h1 h2 h3 h4 h5
  simp [processChatLine, h0, h1, h2, h3, h4, h5, hok]

/-- Witness for the amended C7 theorem: the line `hello world`. -/
theorem unknown_command_policy_witness :
    processChatLine (fun _ => false) ⟨[("alice", 1)], [], [], [], []⟩ "alice" 1 "hello world" =
      Res.ok ⟨[("alice", 1)], [], [], [], []⟩
        [Out.chat 1 "Unknown command. Use msg/broadcast/list/join/send_group\n"] :=
  unknown_command_policy (fun _ => false) ⟨[("alice", 1)], [], [], [], []⟩ "alice" 1 "hello world"
    (by decide) (by decide) (by decide) (by decide) (by decide) (by decide) (by decide)

theorem broadcastLoop_get_none (failing : Nat → Bool) (sender line : String)
    (items live : List (String × Nat)) (cl : List Nat) (u : String)
    (h : dictGet live u = none) :
    dictGet (broadcastLoop failing sender line items live cl).1 u = none := by
  induction items generalizing live cl with
  | nil => simpa [broadcastLoop] using h
  | cons p rest ih =>
    obtain ⟨w, c'⟩ := p
    by_cases h1 : w = sender
    · simpa [broadcastLoop, h1] using ih live cl h
    · by_cases h2 : failing c'
      · simpa [broadcastLoop, h1, h2] using ih _ _ (dictGet_dictDel_none live w u h)
      · simpa [broadcastLoop, h1, h2] using ih live cl h

theorem broadcastLoop_closed_mono (failing : Nat → Bool) (sender line : String)
    (items live : List (String × Nat)) (cl : List Nat) (c : Nat) (h : c ∈ cl) :
    c ∈ (broadcastLoop failing sender line items live cl).2.1 := by
  induction items generalizing live cl with
  | nil => simpa [broadcastLoop] using h
  | cons p rest ih =>
    obtain ⟨w, c'⟩ := p
    by_cases h1 : w = sender
    · simpa [broadcastLoop, h1] using ih live cl h
    · by_cases h2 : failing c'
      · simpa [broadcastLoop, h1, h2] using ih _ _ (List.mem_append_left _ h)
      · simpa [broadcastLoop, h1, h2] using ih live cl h

theorem broadcastLoop_evicts (failing : Nat → Bool) (sender line : String)
    (items live : List (String × Nat)) (cl : List Nat) (u : String) (c : Nat)
    (hm : (u, c) ∈ items) (hs : ¬ u = sender) (hf : failing c = true) :
    dictGet (broadcastLoop failing sender line items live cl).1 u = none ∧
    c ∈ (broadcastLoop failing sender line items live cl).2.1 := by
  induction items generalizing live cl with
  | nil => cases hm
  | cons p rest ih =>
    obtain ⟨w, c'⟩ := p
    rcases List.mem_cons.mp hm with he | hm'
    · injection he with e1 e2
      subst e1; subst e2
      refine ⟨?_, ?_⟩
      · simpa [broadcastLoop, hs, hf] using
          broadcastLoop_get_none failing sender line rest _ _ u (dictGet_dictDel_self live u)
      · simpa [broadcastLoop, hs, hf] using
          broadcastLoop_closed_mono failing sender line rest _ _ c
            (List.mem_append_right _ (by simp))
    · by_cases h1 : w = sender
      · simpa [broadcastLoop, h1] using ih live cl hm'
      · by_cases h2 : failing c'
        · simpa [broadcastLoop, h1, h2] using ih _ _ hm'
        · simpa [broadcastLoop, h1, h2] using ih live cl hm'

/-- C6 amended: eviction on send failure is the policy of `broadcast`
alone — there a failed send closes that user's connection and removes
the chat entry — while `send_private` and `send_group_message` leave
the registries and the closed list exactly as they were on any send
failure (the delivery is simply dropped). -/
theorem send_failure_eviction_policy :
    (∀ (failing : Nat → Bool) (st : ServerState) (sender message u : String) (c : Nat),
        (u, c) ∈ st.clients → ¬ u = sender → failing c = true →
        dictGet (broadcast failing st sender message).1.clients u = none ∧
        c ∈ (broadcast failing st sender message).1.closed) ∧
    (∀ (failing : Nat → Bool) (st : ServerState) (sender target message : String),
        (send_private failing st sender target message).state = st) ∧
    (∀ (failing : Nat → Bool) (st : ServerState) (sender group_name message : String),
        (send_group_message failing st sender group_name message).state = st) := by
  refine ⟨?_, ?_, ?_⟩
  · intro failing st sender message u c hm hs hf
    have h := broadcastLoop_evicts failing sender
      ("[BROADCAST from " ++ sender ++ "]: " ++ message ++ "\n")
      st.clients st.clients st.closed u c hm hs hf
    simpa [broadcast] using h
  · intro failing st sender target message
    unfold send_private
    rcases dictGet st.clients target with _ | c
    · rcases dictGet st.clients sender with _ | sc
      · rfl
      · by_cases h : failing sc <;> simp [h, Res.state]
    · by_cases h : failing c <;> simp [h, Res.state]
  · intro failing st sender group_name message
    unfold send_group_message
    by_cases hc : ((dictGet st.groups group_name).isSome ∧
        sender ∈ (dictGet st.groups group_name).getD [])
    · simp [hc, Res.state]
    · simp only [hc, if_false, ite_false]
      rcases dictGet st.clients sender with _ | sc
      · rfl
      · by_cases h : failing sc <;> simp [h, Res.state]

/-- Witness for the amended C6 theorem: a failing broadcast send to
`bob` evicts and closes him; a failing private send leaves the state
alone. -/
theorem send_failure_eviction_policy_witness :
    (dictGet (broadcast (fun c => c = 5) ⟨[("alice", 1), ("bob", 5)], [], [], [], []⟩
        "alice" "hi").1.clients "bob" = none ∧
     (5 : Nat) ∈ (broadcast (fun c => c = 5) ⟨[("alice", 1), ("bob", 5)], [], [], [], []⟩
        "alice" "hi").1.closed) ∧
    (send_private (fun c => c = 5) ⟨[("bob", 5)], [], [], [], []⟩ "alice" "bob" "x").state =
      ⟨[("bob", 5)], [], [], [], []⟩ :=
  ⟨send_failure_eviction_policy.1 (fun c => c = 5) ⟨[("alice", 1), ("bob", 5)], [], [], [], []⟩
      "alice" "hi" "bob" 5 (by decide) (by decide) (by decide),
   send_failure_eviction_policy.2.1 (fun c => c = 5) ⟨[("bob", 5)], [], [], [], []⟩
      "alice" "bob" "x"⟩

/-- C10 counterexample: `broadcast` writes to peer sockets while
holding `clients_lock` — with one other registered client the trace
contains a send between the acquire and the release. -/
theorem broadcast_holds_lock_during_send :
    someSendUnderLock 0 (broadcastTrace ⟨[("alice", 1), ("bob", 2)], [], [], [], []⟩ "alice") =
      true := by decide

theorem mem_dictSet {α : Type} (m : List (String × α)) (k : String) (v : α) (p : String × α)
    (h : p ∈ dictSet m k v) : p ∈ m ∨ p = (k, v) := by
  unfold dictSet at h
  by_cases hh : dictHas m k
  · rw [if_pos hh] at h
    obtain ⟨q, hq, he⟩ := List.mem_map.mp h
    by_cases hq1 : q.1 = k
    · right; rw [← he, if_pos hq1]
    · left; rwa [← he, if_neg hq1]
  · rw [if_neg hh] at h
    rcases List.mem_append.mp h with h | h
    · left; exact h
    · right; simpa using h

theorem joinMembers_nodup (gs : List (String × List String)) (u g : String)
    (h : groupsNodup gs) : groupsNodup (joinMembers gs u g) := by
  by_cases hh : dictHas gs g
  · rcases hg : dictGet gs g with _ | ms
    · simp [dictHas, hg] at hh
    · by_cases hu : u ∈ ms
      · simpa [joinMembers, hh, hg, hu] using h
      · have e : joinMembers gs u g = dictSet gs g (ms ++ [u]) := by
          simp [joinMembers, hh, hg, hu]
        rw [e]
        intro p hp
        rcases mem_dictSet _ _ _ p hp with hp | hp
        · exact h p hp
        · have hnd : ms.Nodup := by simpa using h _ (mem_of_dictGet_eq_some _ _ _ hg)
          simp [hp, List.nodup_append, hnd, hu]
  · have hgnone : dictGet gs g = none := by
      rcases hq : dictGet gs g with _ | w
      · rfl
      · simp [dictHas, hq] at hh
    have e : joinMembers gs u g = dictSet (gs ++ [(g, [])]) g [u] := by
      simp [joinMembers, hh, dictGet_append_single_self gs g [] hgnone]
    rw [e]
    intro p hp
    rcases mem_dictSet _ _ _ p hp with hp | hp
    · rcases List.mem_append.mp hp with hp | hp
      · exact h p hp
      · simp at hp
        simp [hp]
    · simp [hp]

theorem foldl_joinMembers_nodup (ops : List (String × String))
    (gs : List (String × List String)) (h : groupsNodup gs) :
    groupsNodup (ops.foldl (fun a p => joinMembers a p.1 p.2) gs) := by
  induction ops generalizing gs with
  | nil => exact h
  | cons o rest ih => exact ih _ (joinMembers_nodup _ _ _ h)

theorem joinMembers_idem (gs : List (String × List String)) (u g : String) :
    joinMembers (joinMembers gs u g) u g = joinMembers gs u g := by
  by_cases hh : dictHas gs g
  · rcases hg : dictGet gs g with _ | ms
    · simp [dictHas, hg] at hh
    · by_cases hu : u ∈ ms
      · have e : joinMembers gs u g = gs := by simp [joinMembers, hh, hg, hu]
        rw [e]; exact e
      · have e : joinMembers gs u g = dictSet gs g (ms ++ [u]) := by
          simp [joinMembers, hh, hg, hu]
        rw [e]
        simp [joinMembers, dictHas_dictSet_self, dictGet_dictSet_self]
  · have hgnone : dictGet gs g = none := by
      rcases hq : dictGet gs g with _ | w
      · rfl
      · simp [dictHas, hq] at hh
    have e : joinMembers gs u g = dictSet (gs ++ [(g, [])]) g [u] := by
      simp [joinMembers, hh, dictGet_append_single_self gs g [] hgnone]
    rw [e]
    simp [joinMembers, dictHas_dictSet_self, dictGet_dictSet_self]

/-- C9: for every sequence of `join` operations starting from the
empty group directory, every group's member list is duplicate-free (a
username appears at most once per group), and one `join` is
idempotent: repeating it leaves the directory unchanged. -/
theorem join_group_idempotent_nodup :
    (∀ (ops : List (String × String)) (g : String),
        ((dictGet (applyJoins ops) g).getD []).Nodup) ∧
    (∀ (gs : List (String × List String)) (u g : String),
        joinMembers (joinMembers gs u g) u g = joinMembers gs u g) := by
  constructor
  · intro ops g
    have h : groupsNodup (applyJoins ops) :=
      foldl_joinMembers_nodup ops [] (by intro p hp; cases hp)
    rcases hm : dictGet (applyJoins ops) g with _ | ms
    · simp
    · simpa using h _ (mem_of_dictGet_eq_some _ _ _ hm)
  · exact fun gs u g => joinMembers_idem gs u g

theorem allSends_append_rel (l : List Ev) (s : String) (d : Nat)
    (hd : 0 < d) (hl : ∀ e ∈ l, ∃ c, e = Ev.send c) :
    allSendsUnderLock d (l ++ [Ev.rel s]) = true := by
  induction l with
  | nil => simp [allSendsUnderLock]
  | cons e rest ih =>
    obtain ⟨c, rfl⟩ := hl e (by simp)
    have hr : allSendsUnderLock d (rest ++ [Ev.rel s]) = true :=
      ih (fun e he => hl e (List.mem_cons_of_mem _ he))
    simp [allSendsUnderLock, hd, hr]

theorem someSend_zero_of_sends (l : List Ev)
    (hl : ∀ e ∈ l, ∃ c, e = Ev.send c) :
    someSendUnderLock 0 l = false := by
  induction l with
  | nil => rfl
  | cons e rest ih =>
    obtain ⟨c, rfl⟩ := hl e (by simp)
    simpa [someSendUnderLock] using ih (fun e he => hl e (List.mem_cons_of_mem _ he))

/-- C10 amended: the chat helpers do hold the registry lock across
network sends — every send in the `broadcast` trace and in the
`send_group_message` trace happens with `clients_lock` held — whereas
the file relay's plain-username forward does the opposite: when the
target has a file handle, its lookups are under the locks and every
socket write is outside them. -/
theorem lock_discipline :
    (∀ (st : ServerState) (sender : String),
        allSendsUnderLock 0 (broadcastTrace st sender) = true) ∧
    (∀ (st : ServerState) (sender group_name : String),
        allSendsUnderLock 0 (sendGroupTrace st sender group_name) = true) ∧
    (∀ (st : ServerState) (sender target : String) (fc : Nat),
        dictGet st.fileClients target = some fc →
        someSendUnderLock 0 (filePrivateForwardTrace st sender target) = false) := by
  refine ⟨?_, ?_, ?_⟩
  · intro st sender
    have hl : ∀ e ∈ st.clients.filterMap
        (fun p => if ¬ p.1 = sender then some (Ev.send p.2) else none), ∃ c, e = Ev.send c := by
      intro e he
      obtain ⟨p, hp, hpe⟩ := List.mem_filterMap.mp he
      by_cases hps : p.1 = sender
      · simp [hps] at hpe
      · exact ⟨p.2, by simpa [hps] using hpe.symm⟩
    have := allSends_append_rel _ "clients_lock" 1 (by omega) hl
    simpa [broadcastTrace, allSendsUnderLock] using this
  · intro st sender group_name
    by_cases hc : ((dictGet st.groups group_name).isSome ∧
        sender ∈ (dictGet st.groups group_name).getD [])
    · have hl : ∀ e ∈ ((dictGet st.groups group_name).getD []).filterMap
          (fun u => if ¬ u = sender then (dictGet st.clients u).map Ev.send else none),
          ∃ c, e = Ev.send c := by
        intro e he
        obtain ⟨u, hu, hue⟩ := List.mem_filterMap.mp he
        by_cases hus : u = sender
        · simp [hus] at hue
        · rw [if_pos (by simpa using hus)] at hue
          obtain ⟨c, _, rfl⟩ := Option.map_eq_some'.mp hue
          exact ⟨c, rfl⟩
      have := allSends_append_rel _ "clients_lock" 1 (by omega) hl
      simpa [sendGroupTrace, hc, allSendsUnderLock] using this
    · have hl : ∀ e ∈ (dictGet st.clients sender).toList.map Ev.send, ∃ c, e = Ev.send c := by
        intro e he
        obtain ⟨c, _, rfl⟩ := List.mem_map.mp he
        exact ⟨c, rfl⟩
      have := allSends_append_rel _ "clients_lock" 1 (by omega) hl
      simpa [sendGroupTrace, hc, allSendsUnderLock] using this
  · intro st sender target fc hfc
    have hl : ∀ e ∈ (dictGet st.clients target).toList.map Ev.send ++ [Ev.send fc],
        ∃ c, e = Ev.send c := by
      intro e he
      rcases List.mem_append.mp he with he | he
      · obtain ⟨c, _, rfl⟩ := List.mem_map.mp he
        exact ⟨c, rfl⟩
      · simp at he
        exact ⟨fc, he⟩
    have := someSend_zero_of_sends _ hl
    simpa [filePrivateForwardTrace, hfc, someSendUnderLock] using this

/-- Witness for the amended C10 theorem: concrete registries for each
conjunct (a broadcast with one peer, a group send, a private file
forward to a target with a file handle). -/
theorem lock_discipline_witness :
    allSendsUnderLock 0
      (broadcastTrace ⟨[("alice", 1), ("bob", 2)], [], [], [], []⟩ "alice") = true ∧
    allSendsUnderLock 0
      (sendGroupTrace ⟨[("alice", 1), ("bob", 2)], [], [("g", ["alice", "bob"])], [], []⟩
        "alice" "g") = true ∧
    someSendUnderLock 0
      (filePrivateForwardTrace ⟨[("bob", 2)], [("bob", 4)], [], [], []⟩ "alice" "bob") = false :=
  ⟨lock_discipline.1 ⟨[("alice", 1), ("bob", 2)], [], [], [], []⟩ "alice",
   lock_discipline.2.1 ⟨[("alice", 1), ("bob", 2)], [], [("g", ["alice", "bob"])], [], []⟩
     "alice" "g",
   lock_discipline.2.2 ⟨[("bob", 2)], [("bob", 4)], [], [], []⟩ "alice" "bob" 4 (by decide)⟩

/-- C1: a file upload with a well-formed 4-field header whose target
is a plain username distinct from the sender and has a registered file
handle results in exactly the fresh 3-field header
`sender|filename|filesize` plus the same `filesize` payload bytes on
the target's file handle, preceded — when the target also has a
registered chat handle — by exactly one chat notification naming the
sender and the filename.  The only other effect is the server-side
save of the payload. -/
theorem file_roundtrip_private (st : ServerState) (header : String) (input : List Nat)
    (S T F Ns : String) (n : Nat) (fc : Nat)
    (hp : pySplitAll header '|' = [S, T, F, Ns])
    (hn : pyInt Ns = some (n : Int))
    (hts : ¬ T = S)
    (hgrp : ¬ pyStartswith T "GROUP:" = true)
    (hfc : dictGet st.fileClients T = some fc)
    (hlen : n ≤ input.length) :
    processFileUpload (fun _ => false) st header input =
      ({ st with store := dictSet st.store ("received_from_" ++ S ++ "_" ++ F) (input.take n) },
       (match dictGet st.clients T with
        | some tc => [Out.chat tc ("[FILE] " ++ S ++ " sent you file \x27" ++ F ++ "\x27 (" ++
            toString ((n : Nat) : Int) ++ " bytes). Incoming on file socket.\n")]
        | none => []) ++
       [Out.fileHeader fc (S ++ "|" ++ F ++ "|" ++ toString n ++ "\n"),
        Out.fileBytes fc (input.take n)],
       input.drop n) := by
  have htake : (input.take n).length = n := by
    simp [List.length_take, Nat.min_eq_left hlen]
  simp only [processFileUpload, hp]
  simp only [List.getD_cons_zero, List.getD_cons_succ, List.length_cons, List.length_nil]
  rw [if_neg (by simp), hn]
  simp only [Int.toNat_natCast]
  rw [if_neg hts, if_neg (by simp [hgrp])]
  simp only [hfc]
  simp [send_file_to_client, dictGet_dictSet_self, htake]

/-- Witness for C1: the round trip of the spec, `alice` sending
`report.pdf` (3 bytes) to `bob` who holds both handles. -/
theorem file_roundtrip_private_witness :
    processFileUpload (fun _ => false) ⟨[("bob", 2)], [("bob", 4)], [], [], []⟩
        "alice|bob|report.pdf|3" [10, 20, 30] =
      (⟨[("bob", 2)], [("bob", 4)], [],
        [("received_from_alice_report.pdf", [10, 20, 30])], []⟩,
       [Out.chat 2 "[FILE] alice sent you file \x27report.pdf\x27 (3 bytes). Incoming on file socket.\n",
        Out.fileHeader 4 "alice|report.pdf|3\n",
        Out.fileBytes 4 [10, 20, 30]],
       []) := by
  have h := file_roundtrip_private ⟨[("bob", 2)], [("bob", 4)], [], [], []⟩
    "alice|bob|report.pdf|3" [10, 20, 30] "alice" "bob" "report.pdf" "3" 3 4
    (by decide) (by decide) (by decide) (by decide) (by decide) (by decide)
  exact h

/-- C8: a self-targeted upload (`target == sender`) writes nothing on
any file channel and nothing to any other user: beyond the server-side
save and the consumed payload, its only output is the single
confirmation line on the sender's own chat handle when one is
registered (and nothing at all otherwise or when that send fails). -/
theorem self_target_upload_local (failing : Nat → Bool) (st : ServerState)
    (header : String) (input : List Nat) (S F Ns : String) (filesize : Int)
    (hp : pySplitAll header '|' = [S, S, F, Ns])
    (hn : pyInt Ns = some filesize) :
    processFileUpload failing st header input =
      ({ st with store := dictSet st.store ("received_from_" ++ S ++ "_" ++ F)
                   (input.take filesize.toNat) },
       (match dictGet st.clients S with
        | some c =>
          if failing c then []
          else [Out.chat c ("[FILE] You sent file \x27" ++ F ++ "\x27 (saved as " ++
                 ("received_from_" ++ S ++ "_" ++ F) ++ ").\n")]
        | none => []),
       input.drop filesize.toNat) := by
  simp only [processFileUpload, hp]
  simp only [List.getD_cons_zero, List.getD_cons_succ, List.length_cons, List.length_nil]
  rw [if_neg (by simp), hn]
  rcases hsc : dictGet st.clients S with _ | c
  · simp [hsc]
  · by_cases hfg : failing c <;> simp [hsc, hfg]

/-- Witness for C8: `alice` sending a 2-byte file to herself. -/
theorem self_target_upload_local_witness :
    processFileUpload (fun _ => false) ⟨[("alice", 1)], [], [], [], []⟩
        "alice|alice|r.pdf|2" [10, 20, 30] =
      (⟨[("alice", 1)], [], [], [("received_from_alice_r.pdf", [10, 20])], []⟩,
       [Out.chat 1 "[FILE] You sent file \x27r.pdf\x27 (saved as received_from_alice_r.pdf).\n"],
       [30]) := by
  have h := self_target_upload_local (fun _ => false) ⟨[("alice", 1)], [], [], [], []⟩
    "alice|alice|r.pdf|2" [10, 20, 30] "alice" "r.pdf" "2" 2 (by decide) (by decide)
  exact h

end ChatRelay
